import Mathlib

/-!
Verification development for the IMU multiplexer acquisition scripts
(`i2cdetect.py`, `NewTest.py`, `MXtest.py`).

The shallow embedding models the I2C bus as an oracle (`RBus`): each bus
primitive either succeeds with a value or faults, mirroring the Python
`smbus2` calls that either return or raise.  Bus traffic is recorded as an
explicit trace of `BusOp`s so that "no bus write is issued" is a provable
statement.  Register decoding is embedded over `ℚ` (the Python source uses
float literals; all the decimal constants are exact rationals).
-/

/-- One I2C bus transaction, as issued by the scripts. -/
inductive BusOp where
  | writeByte : Nat → Nat → BusOp
  | writeReg : Nat → Nat → Nat → BusOp
  | readReg : Nat → Nat → BusOp
  | readBlock : Nat → Nat → Nat → BusOp
deriving DecidableEq, Repr

/-- Faults raised by the embedded operations: `invalidChannel` models the
`ValueError("Channel must be 0-7")` raised by `_tca_select`, `noAck` models an
`OSError` from an unacknowledged bus transaction. -/
inductive BusFault where
  | invalidChannel : BusFault
  | noAck : BusFault
deriving DecidableEq, Repr

/-- Oracle for the underlying I2C bus: whether each write is acknowledged and
what each read returns (`none` meaning the read raises). `readBlock` models
`read_i2c_block_data(addr, reg, 14)` as used by `read_imu_data`. -/
structure RBus where
  writeByteOk : Nat → Nat → Bool
  writeRegOk : Nat → Nat → Nat → Bool
  readReg : Nat → Nat → Option Nat
  readBlock : Nat → Nat → Option (Fin 14 → Nat)

/-- The multiplexer device address (`multiplexer_address=0x70` in all three
scripts). -/
def multiplexer_address : Nat := 0x70

/-- The channels the scripts service (`self.imu_channels = [2, 3, 4]`). -/
def imu_channels : List Nat := [2, 3, 4]

/-- The candidate sensor addresses tried per channel, in the order of the
loop `for address in [0x68, 0x69]` of `i2cdetect.py`. -/
def imu_candidate_addresses : List Nat := [0x68, 0x69]

/-- `IMUMultiplexer._tca_select` / `IMUTester._tca_select`: reject channels
outside 0-7 before any bus traffic, otherwise write the single-hot byte
`1 << channel` to the multiplexer address.  Returns the outcome together
with the trace of bus operations issued. -/
def tca_select (bus : RBus) (mux_addr : Nat) (channel : Int) :
    Except BusFault Unit × List BusOp :=
  if channel < 0 ∨ 7 < channel then (Except.error BusFault.invalidChannel, [])
  else
    let b := 1 <<< channel.toNat
    if bus.writeByteOk mux_addr b then (Except.ok (), [BusOp.writeByte mux_addr b])
    else (Except.error BusFault.noAck, [BusOp.writeByte mux_addr b])

/-- `_convert_bytes` / `_convert` / `_convert_bytes_to_int`: two bytes to a
signed 16-bit integer, `value = (high << 8) | low`, subtracting 65536 when
`value >= 32768`. -/
def convert_bytes (high low : Nat) : Int :=
  let value := (high <<< 8) ||| low
  if 32768 ≤ value then (value : Int) - 65536 else (value : Int)

/-- One decoded sensor sample (`read_imu_data` / `read_accel_gyro` result):
acceleration in m/s², temperature in °C, angular rate in rad/s. -/
structure Sample where
  ax : ℚ
  ay : ℚ
  az : ℚ
  temp : ℚ
  gx : ℚ
  gy : ℚ
  gz : ℚ
deriving DecidableEq, Repr

/-- The decoding stage of `read_imu_data` / `read_accel_gyro`: a pure
function of the 14 bytes read from register 0x3B, in the source's order and
with the source's conversion constants. -/
def decodeSample (d : Fin 14 → Nat) : Sample :=
  ⟨(convert_bytes (d 0) (d 1) : ℚ) / 4096.0 * 9.80665,
   (convert_bytes (d 2) (d 3) : ℚ) / 4096.0 * 9.80665,
   (convert_bytes (d 4) (d 5) : ℚ) / 4096.0 * 9.80665,
   (convert_bytes (d 6) (d 7) : ℚ) / 333.87 + 21.0,
   (convert_bytes (d 8) (d 9) : ℚ) / 32.8 * 0.0174533,
   (convert_bytes (d 10) (d 11) : ℚ) / 32.8 * 0.0174533,
   (convert_bytes (d 12) (d 13) : ℚ) / 32.8 * 0.0174533⟩

/-- `IMUMultiplexer.read_imu_data(channel)`: `None` immediately when the
channel has no confirmed slot; otherwise select the channel (the
out-of-range check happens before the select write), block-read 14 bytes
from register 0x3B at the slot's address, and decode.  Any bus fault yields
`None`.  The second component is the trace of bus operations issued. -/
def read_imu_data (bus : RBus) (imus : List (Nat × Nat)) (channel : Nat) :
    Option Sample × List BusOp :=
  match imus.lookup channel with
  | none => (none, [])
  | some addr =>
    if 7 < channel then (none, [])
    else if bus.writeByteOk multiplexer_address (1 <<< channel) then
      match bus.readBlock addr 0x3B with
      | some d =>
        (some (decodeSample d),
         [BusOp.writeByte multiplexer_address (1 <<< channel),
          BusOp.readBlock addr 0x3B 14])
      | none =>
        (none,
         [BusOp.writeByte multiplexer_address (1 <<< channel),
          BusOp.readBlock addr 0x3B 14])
    else (none, [BusOp.writeByte multiplexer_address (1 <<< channel)])

/-- The 14-byte fixture from the specification's testable properties. -/
def fixture_data : Fin 14 → Nat := fun i =>
  List.getD
    [0x10, 0x00, 0x00, 0x00, 0xF0, 0x00, 0x01, 0x00,
     0x00, 0x00, 0x00, 0x00, 0x00, 0x00] i.val 0

/-- Modelled from the spec: big-endian two-byte encoding of a signed 16-bit
value (the mathematical inverse claimed for `convert_bytes`; the scripts
contain no encoder). -/
def encode_be (v : Int) : Nat × Nat :=
  let u := (v % 65536).toNat
  (u / 256, u % 256)

/-- The inner per-address loop of `IMUMultiplexer.initialize_imus` (run after
the channel has been selected): for each candidate address, wake the device
(register 0x6B := 0x00), read the identification register 0x75, and confirm
the slot with `some (address, who_am_i)` when the value is 0x71 or 0x73,
stopping there.  A wake fault, a read fault, or an unknown value moves on to
the next candidate; `none` after the list is exhausted. -/
def discover_addresses (bus : RBus) : List Nat → Option (Nat × Nat)
  | [] => none
  | a :: rest =>
    if bus.writeRegOk a 0x6B 0x00 then
      match bus.readReg a 0x75 with
      | some w =>
        if w = 0x71 ∨ w = 0x73 then some (a, w)
        else discover_addresses bus rest
      | none => discover_addresses bus rest
    else discover_addresses bus rest

/-- `IMUTester.detect_imu_on_channel(channel, address=0x69)`: select the
channel, read the identification register 0x75 at the single given address,
and report detected exactly when the value equals 0x71.  The second
component is the identification value when the read succeeded.  Any fault
(including an out-of-range channel) yields `(false, none)`. -/
def detect_imu_on_channel (bus : RBus) (channel : Nat) (address : Nat) :
    Bool × Option Nat :=
  if 7 < channel then (false, none)
  else if bus.writeByteOk multiplexer_address (1 <<< channel) then
    match bus.readReg address 0x75 with
    | some w => (w == 0x71, some w)
    | none => (false, none)
  else (false, none)

/-- One channel of `IMUMultiplexer.scan_all_channels`: the addresses among
0x68, 0x69 that wake and identify as 0x71 or 0x73.  Every fault is swallowed
(empty findings); the scan itself never raises. -/
def scan_channel (bus : RBus) (channel : Nat) : List Nat :=
  if 7 < channel then []
  else if bus.writeByteOk multiplexer_address (1 <<< channel) then
    [0x68, 0x69].filter fun a =>
      bus.writeRegOk a 0x6B 0x00 &&
        match bus.readReg a 0x75 with
        | some w => decide (w = 0x71 ∨ w = 0x73)
        | none => false
  else []

/-- `IMUMultiplexer.scan_all_channels`: scan channels 0-7, swallowing every
per-channel fault. -/
def scan_all_channels (bus : RBus) : List (Nat × List Nat) :=
  (List.range 8).map fun c => (c, scan_channel bus c)

/-- `IMUMultiplexer.__init__`: reset the multiplexer by writing 0x00 (no
channel active) to its address, raising when that write is not acknowledged,
then scan all channels (which swallows its own faults).  Success of this
constructor is what the callers interpret as "multiplexer present". -/
def imu_multiplexer_init (bus : RBus) :
    Except BusFault (List (Nat × List Nat)) :=
  if bus.writeByteOk multiplexer_address 0x00 then
    Except.ok (scan_all_channels bus)
  else Except.error BusFault.noAck

/-- The loop body of `IMUMultiplexer.read_all_imus`: iterate the confirmed
entries, read each channel, keep the successful samples.  A `None` read
contributes nothing and the iteration continues. -/
def read_cycle (bus : RBus) (imus : List (Nat × Nat)) :
    List (Nat × Nat) → List (Nat × Sample)
  | [] => []
  | p :: rest =>
    match (read_imu_data bus imus p.1).1 with
    | some s => (p.1, s) :: read_cycle bus imus rest
    | none => read_cycle bus imus rest

/-- `IMUMultiplexer.read_all_imus`: one sampling cycle over the confirmed
slots. -/
def read_all_imus (bus : RBus) (imus : List (Nat × Nat)) :
    List (Nat × Sample) :=
  read_cycle bus imus imus

/-- The channels on which `read_all_imus` attempts a read during one cycle:
every key of `imus` is attempted unconditionally, whatever the bus does. -/
def read_cycle_attempts (bus : RBus) (imus : List (Nat × Nat)) :
    List (Nat × Nat) → List Nat
  | [] => []
  | p :: rest => p.1 :: read_cycle_attempts bus imus rest

/-- A bus on which every transaction succeeds (identification reads return
0; block reads fault), used to exercise the channel-select paths. -/
def c1_bus : RBus :=
  ⟨fun _ _ => true, fun _ _ _ => true, fun _ _ => some 0, fun _ _ => none⟩

/-- A bus whose 14-byte block reads return the spec's fixture bytes. -/
def c2_bus : RBus :=
  ⟨fun _ _ => true, fun _ _ _ => true, fun _ _ => some 0,
   fun _ _ => some fixture_data⟩

/-- A bus whose identification register reads 0x73 everywhere. -/
def c4_bus73 : RBus :=
  ⟨fun _ _ => true, fun _ _ _ => true, fun _ _ => some 0x73, fun _ _ => none⟩

/-- A bus whose identification register reads 0x71 everywhere. -/
def c4_busW : RBus :=
  ⟨fun _ _ => true, fun _ _ _ => true, fun _ _ => some 0x71, fun _ _ => none⟩

/-- A bus on which sensors answer at every address with identification
0x71, so both candidate addresses of a channel would confirm. -/
def c5_bus71 : RBus :=
  ⟨fun _ _ => true, fun _ _ _ => true, fun _ _ => some 0x71, fun _ _ => none⟩

/-- A bus on which sensors answer at every address with identification
0x73. -/
def c5_busW : RBus :=
  ⟨fun _ _ => true, fun _ _ _ => true, fun _ _ => some 0x73, fun _ _ => none⟩

/-- A bus with the multiplexer reset acknowledged and all sensors alive. -/
def c7_busA : RBus :=
  ⟨fun _ _ => true, fun _ _ _ => true, fun _ _ => some 0x71,
   fun _ _ => some fixture_data⟩

/-- A bus with the multiplexer reset acknowledged but every sensor dead. -/
def c7_busB : RBus :=
  ⟨fun _ _ => true, fun _ _ _ => false, fun _ _ => none, fun _ _ => none⟩

/-- A fully healthy bus (block reads return the fixture bytes). -/
def c9_bus : RBus :=
  ⟨fun _ _ => true, fun _ _ _ => true, fun _ _ => some 0x71,
   fun _ _ => some fixture_data⟩

/-- First of two distinct buses that return the same block bytes. -/
def c10_busA : RBus :=
  ⟨fun _ _ => true, fun _ _ _ => true, fun _ _ => some 0x71,
   fun _ _ => some fixture_data⟩

/-- Second of two distinct buses that return the same block bytes: all
register reads and register writes behave differently from `c10_busA`. -/
def c10_busB : RBus :=
  ⟨fun _ _ => true, fun _ _ _ => false, fun _ _ => none,
   fun _ _ => some fixture_data⟩

theorem shiftLeft_lor_eq_add (h l : Nat) (hl : l < 256) :
    (h <<< 8) ||| l = h * 256 + l := by
  have h1 : h <<< 8 = 2 ^ 8 * h := by rw [Nat.shiftLeft_eq]; ring
  have hl8 : l < 2 ^ 8 := by norm_num at hl ⊢; exact hl
  rw [h1, ← Nat.mul_add_lt_is_or hl8 h]
  ring

theorem convert_bytes_eq (high low : Nat) (hl : low < 256) :
    convert_bytes high low =
      if 32768 ≤ high * 256 + low then (high * 256 + low : Int) - 65536
      else (high * 256 + low : Int) := by
  simp only [convert_bytes, shiftLeft_lor_eq_add high low hl]
  split <;> push_cast <;> ring

/-- C1: for every channel 0-7, `tca_select` issues exactly one bus write —
the single-hot byte `1 <<< channel` (bit `channel` set, every other bit
clear) — to the multiplexer address, succeeding iff that write is
acknowledged; for every channel outside 0-7 it fails with `invalidChannel`
and issues no bus operation at all. -/
theorem tca_select_single_hot (bus : RBus) (channel : Int) :
    (0 ≤ channel → channel ≤ 7 →
      (tca_select bus multiplexer_address channel).2 =
        [BusOp.writeByte multiplexer_address (1 <<< channel.toNat)] ∧
      ((tca_select bus multiplexer_address channel).1 = Except.ok () ↔
        bus.writeByteOk multiplexer_address (1 <<< channel.toNat) = true) ∧
      ∀ j : Nat, (1 <<< channel.toNat).testBit j = decide (j = channel.toNat)) ∧
    (channel < 0 ∨ 7 < channel →
      (tca_select bus multiplexer_address channel).1 =
        Except.error BusFault.invalidChannel ∧
      (tca_select bus multiplexer_address channel).2 = []) := by
  constructor
  · intro h0 h7
    have hif : ¬ (channel < 0 ∨ 7 < channel) := by omega
    refine ⟨?_, ?_, ?_⟩
    · simp only [tca_select, if_neg hif]
      cases hb : bus.writeByteOk multiplexer_address (1 <<< channel.toNat) <;>
        simp [hb]
    · simp only [tca_select, if_neg hif]
      cases hb : bus.writeByteOk multiplexer_address (1 <<< channel.toNat) <;>
        simp [hb]
    · intro j
      rw [Nat.shiftLeft_eq, one_mul, Nat.testBit_two_pow]
      exact decide_eq_decide.mpr eq_comm
  · intro h
    simp only [tca_select, if_pos h]
    exact ⟨by trivial, by trivial⟩

/-- C1 witness: on a fully acknowledging bus, channel 3 writes exactly the
single-hot byte `1 <<< 3`, and channel 8 fails with `invalidChannel` on an
empty trace. -/
theorem tca_select_single_hot_witness :
    ((0 : Int) ≤ 3 ∧ (3 : Int) ≤ 7 ∧
      (tca_select c1_bus multiplexer_address 3).2 =
        [BusOp.writeByte multiplexer_address (1 <<< (3 : Int).toNat)]) ∧
    (((8 : Int) < 0 ∨ (7 : Int) < 8) ∧
      ((tca_select c1_bus multiplexer_address 8).1 =
          Except.error BusFault.invalidChannel ∧
        (tca_select c1_bus multiplexer_address 8).2 = [])) :=
  ⟨⟨by decide, by decide,
    ((tca_select_single_hot c1_bus 3).1 (by decide) (by decide)).1⟩,
   ⟨Or.inr (by decide),
    (tca_select_single_hot c1_bus 8).2 (Or.inr (by decide))⟩⟩

/-- C3: `convert_bytes` is the inverse of big-endian two-byte encoding on
the whole signed 16-bit range, and the spec's example byte pairs decode to
-1, 1 and -32768. -/
theorem convert_bytes_inverse_of_encode :
    (∀ v : Int, -32768 ≤ v → v ≤ 32767 →
      convert_bytes (encode_be v).1 (encode_be v).2 = v) ∧
    convert_bytes 0xFF 0xFF = -1 ∧
    convert_bytes 0x00 0x01 = 1 ∧
    convert_bytes 0x80 0x00 = -32768 := by
  refine ⟨?_, by decide, by decide, by decide⟩
  intro v h1 h2
  have hnn : 0 ≤ v % 65536 := Int.emod_nonneg v (by decide)
  have hlt : v % 65536 < 65536 := Int.emod_lt_of_pos v (by decide)
  have hu2 : ((v % 65536).toNat : Int) = v % 65536 := Int.toNat_of_nonneg hnn
  show convert_bytes ((v % 65536).toNat / 256) ((v % 65536).toNat % 256) = v
  rw [convert_bytes_eq _ _ (Nat.mod_lt _ (by decide))]
  have hdm : (v % 65536).toNat / 256 * 256 + (v % 65536).toNat % 256 =
      (v % 65536).toNat := by omega
  rw [hdm]
  split <;> omega

/-- C3 witness: the round trip applied at the concrete value -1. -/
theorem convert_bytes_inverse_witness :
    (-32768 : Int) ≤ -1 ∧ (-1 : Int) ≤ 32767 ∧
      convert_bytes (encode_be (-1)).1 (encode_be (-1)).2 = -1 :=
  ⟨by decide, by decide,
    convert_bytes_inverse_of_encode.1 (-1) (by decide) (by decide)⟩

/-- C8: for all byte inputs (each at most 255), `convert_bytes` returns a
value inside the signed 16-bit range [-32768, 32767]. -/
theorem convert_bytes_range (high low : Nat) (hh : high ≤ 255)
    (hl : low ≤ 255) :
    -32768 ≤ convert_bytes high low ∧ convert_bytes high low ≤ 32767 := by
  rw [convert_bytes_eq high low (by omega)]
  split <;> constructor <;> omega

/-- C8 witness: the extreme byte pair (0xFF, 0xFF) stays in range. -/
theorem convert_bytes_range_witness :
    (255 : Nat) ≤ 255 ∧ (255 : Nat) ≤ 255 ∧
      (-32768 ≤ convert_bytes 255 255 ∧ convert_bytes 255 255 ≤ 32767) :=
  ⟨le_refl 255, le_refl 255, convert_bytes_range 255 255 (le_refl 255) (le_refl 255)⟩

/-- C2: reading a confirmed slot whose 14-byte block read succeeds decodes
those bytes alone, in the fixed order accel-X, accel-Y, accel-Z,
temperature, gyro-X, gyro-Y, gyro-Z (big-endian signed-16 pairs), with
acceleration `raw / 4096.0 * 9.80665`, temperature `raw / 333.87 + 21.0`
and angular rate `raw / 32.8 * 0.0174533`; on the spec's 14-byte fixture,
acceleration X is exactly 9.80665 m/s² and temperature is within 0.001 of
21.766 °C. -/
theorem read_decode_formulas_and_fixture :
    (∀ (bus : RBus) (imus : List (Nat × Nat)) (c a : Nat) (d : Fin 14 → Nat),
      imus.lookup c = some a → c ≤ 7 →
      bus.writeByteOk multiplexer_address (1 <<< c) = true →
      bus.readBlock a 0x3B = some d →
      (read_imu_data bus imus c).1 = some
        ⟨(convert_bytes (d 0) (d 1) : ℚ) / 4096.0 * 9.80665,
         (convert_bytes (d 2) (d 3) : ℚ) / 4096.0 * 9.80665,
         (convert_bytes (d 4) (d 5) : ℚ) / 4096.0 * 9.80665,
         (convert_bytes (d 6) (d 7) : ℚ) / 333.87 + 21.0,
         (convert_bytes (d 8) (d 9) : ℚ) / 32.8 * 0.0174533,
         (convert_bytes (d 10) (d 11) : ℚ) / 32.8 * 0.0174533,
         (convert_bytes (d 12) (d 13) : ℚ) / 32.8 * 0.0174533⟩) ∧
    (decodeSample fixture_data).ax = 9.80665 ∧
    |(decodeSample fixture_data).temp - 21.766| < 0.001 ∧
    (decodeSample fixture_data).az = -9.80665 ∧
    (decodeSample fixture_data).ay = 0 ∧
    (decodeSample fixture_data).gx = 0 := by
  have e0 : convert_bytes (fixture_data 0) (fixture_data 1) = 4096 := by decide
  have e2 : convert_bytes (fixture_data 2) (fixture_data 3) = 0 := by decide
  have e4 : convert_bytes (fixture_data 4) (fixture_data 5) = -4096 := by decide
  have e6 : convert_bytes (fixture_data 6) (fixture_data 7) = 256 := by decide
  have e8 : convert_bytes (fixture_data 8) (fixture_data 9) = 0 := by decide
  refine ⟨?_, ?_, ?_, ?_, ?_, ?_⟩
  · intro bus imus c a d hl hc hw hr
    have h7 : ¬ 7 < c := by omega
    simp [read_imu_data, hl, h7, hw, hr, decodeSample]
  · simp only [decodeSample, e0]; norm_num
  · simp only [decodeSample, e6]; rw [abs_lt]; constructor <;> norm_num
  · simp only [decodeSample, e4]; norm_num
  · simp only [decodeSample, e2]; norm_num
  · simp only [decodeSample, e8]; norm_num

/-- C2 witness: a read of channel 2 at address 0x68 on a bus returning the
fixture bytes decodes to the fixture's sample. -/
theorem read_decode_fixture_witness :
    ([(2, 0x68)] : List (Nat × Nat)).lookup 2 = some 0x68 ∧ (2 : Nat) ≤ 7 ∧
    c2_bus.writeByteOk multiplexer_address (1 <<< 2) = true ∧
    c2_bus.readBlock 0x68 0x3B = some fixture_data ∧
    (read_imu_data c2_bus [(2, 0x68)] 2).1 = some
      ⟨(convert_bytes (fixture_data 0) (fixture_data 1) : ℚ) / 4096.0 * 9.80665,
       (convert_bytes (fixture_data 2) (fixture_data 3) : ℚ) / 4096.0 * 9.80665,
       (convert_bytes (fixture_data 4) (fixture_data 5) : ℚ) / 4096.0 * 9.80665,
       (convert_bytes (fixture_data 6) (fixture_data 7) : ℚ) / 333.87 + 21.0,
       (convert_bytes (fixture_data 8) (fixture_data 9) : ℚ) / 32.8 * 0.0174533,
       (convert_bytes (fixture_data 10) (fixture_data 11) : ℚ) / 32.8 * 0.0174533,
       (convert_bytes (fixture_data 12) (fixture_data 13) : ℚ) / 32.8 * 0.0174533⟩ :=
  ⟨rfl, by omega, rfl, rfl,
    read_decode_formulas_and_fixture.1 c2_bus [(2, 0x68)] 2 0x68 fixture_data
      rfl (by omega) rfl rfl⟩

/-- C9: a per-channel read on a channel with no confirmed slot returns
`None` immediately, with an empty bus trace — no channel select, no bus
transaction. -/
theorem read_unconfirmed_channel_none (bus : RBus) (imus : List (Nat × Nat))
    (channel : Nat) (h : imus.lookup channel = none) :
    read_imu_data bus imus channel = (none, []) := by
  simp [read_imu_data, h]

/-- C9 witness: channel 5 with only channel 2 confirmed, on a fully healthy
bus. -/
theorem read_unconfirmed_channel_none_witness :
    ([(2, 0x68)] : List (Nat × Nat)).lookup 5 = none ∧
      read_imu_data c9_bus [(2, 0x68)] 5 = (none, []) :=
  ⟨rfl, read_unconfirmed_channel_none c9_bus [(2, 0x68)] 5 rfl⟩

/-- C10: sample decoding is deterministic — two reads (on different buses,
different channels, different slot tables) whose 14-byte block reads return
the same bytes produce identical samples. -/
theorem read_decode_deterministic (bus₁ bus₂ : RBus)
    (imus₁ imus₂ : List (Nat × Nat)) (c₁ c₂ a₁ a₂ : Nat) (d : Fin 14 → Nat) :
    imus₁.lookup c₁ = some a₁ → imus₂.lookup c₂ = some a₂ →
    c₁ ≤ 7 → c₂ ≤ 7 →
    bus₁.writeByteOk multiplexer_address (1 <<< c₁) = true →
    bus₂.writeByteOk multiplexer_address (1 <<< c₂) = true →
    bus₁.readBlock a₁ 0x3B = some d → bus₂.readBlock a₂ 0x3B = some d →
    (read_imu_data bus₁ imus₁ c₁).1 = (read_imu_data bus₂ imus₂ c₂).1 := by
  intro h1 h2 hc1 hc2 hw1 hw2 hr1 hr2
  have h71 : ¬ 7 < c₁ := by omega
  have h72 : ¬ 7 < c₂ := by omega
  simp [read_imu_data, h1, h2, h71, h72, hw1, hw2, hr1, hr2]

/-- C10 witness: channel 2 at 0x68 on one bus and channel 3 at 0x69 on a
bus with different register behaviour, both block-reading the fixture
bytes, decode identically. -/
theorem read_decode_deterministic_witness :
    ([(2, 0x68)] : List (Nat × Nat)).lookup 2 = some 0x68 ∧
    ([(3, 0x69)] : List (Nat × Nat)).lookup 3 = some 0x69 ∧
    c10_busA.readBlock 0x68 0x3B = some fixture_data ∧
    c10_busB.readBlock 0x69 0x3B = some fixture_data ∧
    (read_imu_data c10_busA [(2, 0x68)] 2).1 =
      (read_imu_data c10_busB [(3, 0x69)] 3).1 :=
  ⟨rfl, rfl, rfl, rfl,
    read_decode_deterministic c10_busA c10_busB [(2, 0x68)] [(3, 0x69)]
      2 3 0x68 0x69 fixture_data rfl rfl (by omega) (by omega) rfl rfl rfl rfl⟩

/-- C7: the constructor's presence check writes 0x00 (no channel active) to
the multiplexer address; it reports the multiplexer absent exactly when
that reset write is unacknowledged and present otherwise, independent of
every sensor's state. -/
theorem presence_check_reset_ack :
    (∀ bus : RBus, (imu_multiplexer_init bus).isOk =
        bus.writeByteOk multiplexer_address 0x00) ∧
    (∀ bus : RBus, imu_multiplexer_init bus = Except.error BusFault.noAck ↔
        bus.writeByteOk multiplexer_address 0x00 = false) ∧
    (∀ bus₁ bus₂ : RBus,
      bus₁.writeByteOk multiplexer_address 0x00 =
        bus₂.writeByteOk multiplexer_address 0x00 →
      (imu_multiplexer_init bus₁).isOk = (imu_multiplexer_init bus₂).isOk) := by
  refine ⟨?_, ?_, ?_⟩
  · intro bus
    cases hb : bus.writeByteOk multiplexer_address 0x00 <;>
      simp [imu_multiplexer_init, hb, Except.isOk, Except.toBool]
  · intro bus
    cases hb : bus.writeByteOk multiplexer_address 0x00 <;>
      simp [imu_multiplexer_init, hb]
  · intro bus₁ bus₂ h
    simp only [imu_multiplexer_init]
    rw [h]
    cases hb : bus₂.writeByteOk multiplexer_address 0x00 <;>
      simp [hb, Except.isOk, Except.toBool]

/-- C7 witness: a bus with every sensor alive and a bus with every sensor
dead, both acknowledging the reset write, yield the same presence outcome. -/
theorem presence_check_reset_ack_witness :
    c7_busA.writeByteOk multiplexer_address 0x00 =
      c7_busB.writeByteOk multiplexer_address 0x00 ∧
    (imu_multiplexer_init c7_busA).isOk = (imu_multiplexer_init c7_busB).isOk :=
  ⟨rfl, presence_check_reset_ack.2.2 c7_busA c7_busB rfl⟩

/-- C4 counterexample: `IMUTester.detect_imu_on_channel` (one of the cited
discovery routines) does not confirm when the identification register reads
0x73, although 0x73 is in {0x71, 0x73}; on a healthy bus answering 0x73 it
reports not-detected. -/
theorem detect_rejects_0x73 :
    ((0x73 : Nat) = 0x71 ∨ (0x73 : Nat) = 0x73) ∧
    c4_bus73.readReg 0x69 0x75 = some 0x73 ∧
    (detect_imu_on_channel c4_bus73 2 0x69).1 = false :=
  ⟨Or.inr rfl, rfl, by decide⟩

/-- C4 amended: the per-channel discovery of `i2cdetect.py`
(`discover_addresses`) confirms a candidate exactly when the
identification register reads a value in {0x71, 0x73}, stops at the first
confirmed candidate, swallows per-candidate faults (wake fault, read
fault, or unknown value) as "try next candidate", and returns `none` only
after every candidate is exhausted without confirmation; the single-address
detector of `MXtest.py` confirms only on the value 0x71. -/
theorem discovery_confirmation :
    (∀ (bus : RBus) (cands : List Nat) (a w : Nat),
      discover_addresses bus cands = some (a, w) →
      a ∈ cands ∧ bus.readReg a 0x75 = some w ∧ (w = 0x71 ∨ w = 0x73)) ∧
    (∀ (bus : RBus) (a w : Nat) (rest : List Nat),
      bus.writeRegOk a 0x6B 0x00 = true → bus.readReg a 0x75 = some w →
      (w = 0x71 ∨ w = 0x73) →
      discover_addresses bus (a :: rest) = some (a, w)) ∧
    (∀ (bus : RBus) (a : Nat) (rest : List Nat),
      bus.writeRegOk a 0x6B 0x00 = false →
      discover_addresses bus (a :: rest) = discover_addresses bus rest) ∧
    (∀ (bus : RBus) (a : Nat) (rest : List Nat),
      bus.readReg a 0x75 = none →
      discover_addresses bus (a :: rest) = discover_addresses bus rest) ∧
    (∀ (bus : RBus) (a w : Nat) (rest : List Nat),
      bus.readReg a 0x75 = some w → w ≠ 0x71 → w ≠ 0x73 →
      discover_addresses bus (a :: rest) = discover_addresses bus rest) ∧
    (∀ (bus : RBus) (cands : List Nat),
      (discover_addresses bus cands = none ↔
        ∀ a ∈ cands, ∀ w : Nat, bus.writeRegOk a 0x6B 0x00 = true →
          bus.readReg a 0x75 = some w → w ≠ 0x71 ∧ w ≠ 0x73)) ∧
    (∀ (bus : RBus) (c addr : Nat),
      ((detect_imu_on_channel bus c addr).1 = true ↔
        c ≤ 7 ∧ bus.writeByteOk multiplexer_address (1 <<< c) = true ∧
          bus.readReg addr 0x75 = some 0x71)) := by
  refine ⟨?_, ?_, ?_, ?_, ?_, ?_, ?_⟩
  · intro bus cands
    induction cands with
    | nil => intro a w h; simp [discover_addresses] at h
    | cons b rest ih =>
      intro a w h
      simp only [discover_addresses] at h
      by_cases hwk : bus.writeRegOk b 0x6B 0x00 = true
      · rw [if_pos hwk] at h
        split at h
        · rename_i w₀ hr
          split at h
          · rename_i hset
            injection h with h'
            injection h' with ha hw
            subst ha; subst hw
            exact ⟨List.mem_cons_self _ _, hr, hset⟩
          · rcases ih a w h with ⟨hm, hread, hs⟩
            exact ⟨List.mem_cons_of_mem b hm, hread, hs⟩
        · rcases ih a w h with ⟨hm, hread, hs⟩
          exact ⟨List.mem_cons_of_mem b hm, hread, hs⟩
      · rw [if_neg hwk] at h
        rcases ih a w h with ⟨hm, hread, hs⟩
        exact ⟨List.mem_cons_of_mem b hm, hread, hs⟩
  · intro bus a w rest hwk hr hset
    simp [discover_addresses, hwk, hr, hset]
  · intro bus a rest hwk
    simp [discover_addresses, hwk]
  · intro bus a rest hr
    by_cases hwk : bus.writeRegOk a 0x6B 0x00 = true <;>
      simp [discover_addresses, hwk, hr]
  · intro bus a w rest hr h71 h73
    by_cases hwk : bus.writeRegOk a 0x6B 0x00 = true <;>
      simp [discover_addresses, hwk, hr, h71, h73]
  · intro bus cands
    induction cands with
    | nil => simp [discover_addresses]
    | cons b rest ih =>
      rw [List.forall_mem_cons]
      simp only [discover_addresses]
      by_cases hwk : bus.writeRegOk b 0x6B 0x00 = true
      · rw [if_pos hwk]
        cases hr : bus.readReg b 0x75 with
        | none => simp [hr, ih, hwk]
        | some w =>
          dsimp only
          by_cases hset : w = 0x71 ∨ w = 0x73
          · rw [if_pos hset]
            constructor
            · intro h; exact absurd h (by simp)
            · intro h
              rcases h.1 w hwk rfl with ⟨h71, h73⟩
              tauto
          · rw [if_neg hset]
            push_neg at hset
            simp [hwk, ih, hset.1, hset.2]
      · rw [if_neg hwk]
        simp [hwk, ih]
  · intro bus c addr
    by_cases hc : 7 < c
    · simp only [detect_imu_on_channel, if_pos hc]
      constructor
      · intro h; exact absurd h (by simp)
      · intro h; omega
    · have hc' : c ≤ 7 := by omega
      cases hb : bus.writeByteOk multiplexer_address (1 <<< c)
      · simp [detect_imu_on_channel, hc, hb]
      · cases hr : bus.readReg addr 0x75 with
        | none => simp [detect_imu_on_channel, hc, hb, hr]
        | some w => simp [detect_imu_on_channel, hc, hc', hb, hr]

/-- C4 witness: on a bus answering 0x71 at every address, discovery
confirms the first candidate 0x68 and stops there. -/
theorem discovery_confirmation_witness :
    c4_busW.writeRegOk 0x68 0x6B 0x00 = true ∧
    c4_busW.readReg 0x68 0x75 = some 0x71 ∧
    ((0x71 : Nat) = 0x71 ∨ (0x71 : Nat) = 0x73) ∧
    discover_addresses c4_busW (0x68 :: [0x69]) = some (0x68, 0x71) :=
  ⟨rfl, rfl, Or.inl rfl,
    discovery_confirmation.2.1 c4_busW 0x68 0x71 [0x69] rfl rfl (Or.inl rfl)⟩

/-- C5 counterexample: on a bus where sensors answer with identification
0x71 at both 0x68 and 0x69, discovery resolves the slot to 0x68, not 0x69,
and the configured candidate list is [0x68, 0x69], not [0x69, 0x68]. -/
theorem candidate_order_counterexample :
    c5_bus71.readReg 0x68 0x75 = some 0x71 ∧
    c5_bus71.readReg 0x69 0x75 = some 0x71 ∧
    discover_addresses c5_bus71 imu_candidate_addresses = some (0x68, 0x71) ∧
    (0x68 : Nat) ≠ 0x69 ∧
    imu_candidate_addresses ≠ [0x69, 0x68] :=
  ⟨rfl, rfl, by decide, by decide, by decide⟩

/-- C5 amended: the configured default candidate list is [0x68, 0x69]; for
every channel the candidates are tried in the order 0x68 before 0x69, so
when devices answer at both addresses the slot resolves to 0x68. -/
theorem candidate_order_amended :
    imu_candidate_addresses = [0x68, 0x69] ∧
    (∀ (bus : RBus) (w : Nat),
      bus.writeRegOk 0x68 0x6B 0x00 = true →
      bus.readReg 0x68 0x75 = some w →
      (w = 0x71 ∨ w = 0x73) →
      discover_addresses bus imu_candidate_addresses = some (0x68, w)) := by
  refine ⟨rfl, ?_⟩
  intro bus w hw hr hset
  simp [imu_candidate_addresses, discover_addresses, hw, hr, hset]

/-- C5 witness: a bus answering 0x73 at every address resolves the slot to
the first candidate 0x68. -/
theorem candidate_order_amended_witness :
    c5_busW.writeRegOk 0x68 0x6B 0x00 = true ∧
    c5_busW.readReg 0x68 0x75 = some 0x73 ∧
    ((0x73 : Nat) = 0x71 ∨ (0x73 : Nat) = 0x73) ∧
    discover_addresses c5_busW imu_candidate_addresses = some (0x68, 0x73) :=
  ⟨rfl, rfl, Or.inr rfl,
    candidate_order_amended.2 c5_busW 0x73 rfl rfl (Or.inr rfl)⟩

theorem read_cycle_mem (bus : RBus) (imus : List (Nat × Nat)) (c : Nat)
    (s : Sample) : ∀ entries : List (Nat × Nat),
    ((c, s) ∈ read_cycle bus imus entries ↔
      c ∈ entries.map Prod.fst ∧ (read_imu_data bus imus c).1 = some s) := by
  intro entries
  induction entries with
  | nil => simp [read_cycle]
  | cons p rest ih =>
    cases hr : (read_imu_data bus imus p.1).1 with
    | none =>
      simp only [read_cycle, hr, List.map_cons, List.mem_cons, ih]
      constructor
      · rintro ⟨hm, hs⟩; exact ⟨Or.inr hm, hs⟩
      · rintro ⟨hm | hm, hs⟩
        · subst hm; rw [hr] at hs; cases hs
        · exact ⟨hm, hs⟩
    | some s₀ =>
      simp only [read_cycle, hr, List.mem_cons, List.map_cons,
        Prod.mk.injEq, ih]
      constructor
      · rintro (⟨hc, hs⟩ | ⟨hm, hs⟩)
        · subst hc; subst hs; exact ⟨Or.inl rfl, hr⟩
        · exact ⟨Or.inr hm, hs⟩
      · rintro ⟨hc | hm, hs⟩
        · subst hc; rw [hr] at hs
          injection hs with hs'
          exact Or.inl ⟨rfl, hs'.symm⟩
        · exact Or.inr ⟨hm, hs⟩

/-- C6: in one sampling cycle over the confirmed slots, a sample `(c, s)`
is reported exactly when `c` is a confirmed slot whose own read succeeds —
so a read fault on one slot neither aborts the cycle nor suppresses any
other slot's read; and the channels attempted in a cycle are always exactly
the confirmed slots, independent of the bus's behaviour, so a faulted slot
is attempted again on the next cycle. -/
theorem read_cycle_fault_isolation :
    (∀ (bus : RBus) (imus : List (Nat × Nat)) (c : Nat) (s : Sample),
      ((c, s) ∈ read_all_imus bus imus ↔
        c ∈ imus.map Prod.fst ∧ (read_imu_data bus imus c).1 = some s)) ∧
    (∀ (bus : RBus) (imus : List (Nat × Nat)),
      read_cycle_attempts bus imus imus = imus.map Prod.fst) ∧
    (∀ (bus₁ bus₂ : RBus) (imus : List (Nat × Nat)),
      read_cycle_attempts bus₁ imus imus = read_cycle_attempts bus₂ imus imus) := by
  have hatt : ∀ (bus : RBus) (imus entries : List (Nat × Nat)),
      read_cycle_attempts bus imus entries = entries.map Prod.fst := by
    intro bus imus entries
    induction entries with
    | nil => rfl
    | cons p rest ih => simp [read_cycle_attempts, ih]
  refine ⟨?_, ?_, ?_⟩
  · intro bus imus c s
    exact read_cycle_mem bus imus c s imus
  · intro bus imus
    exact hatt bus imus imus
  · intro bus₁ bus₂ imus
    rw [hatt, hatt]
